import Mathlib

/-!
Verification of the ValueBench repository: a shallow embedding of the
case-generation pipeline (`generator.py`) and of the evaluation store
(`src/evaluation_store.py`), together with theorems settling the frozen
claims about them.

External LLM collaborators (prompt rendering, structured completion) are
modelled as oracle functions supplied through environment records, so every
theorem quantifies over all possible collaborator behaviours.
-/

namespace ValueBench

/-! ## Case data model

`DraftCase` mirrors `response_models.case.DraftCase` (a vignette and two
choice texts).  `BenchmarkCandidate` mirrors the tagged shape: each choice
carries a text plus one tag string per value axis.  `CaseData` is the union
of the two shapes that can appear as an iteration's `data` field; the code
distinguishes them with `isinstance(..., BenchmarkCandidate)`. -/

structure DraftCase where
  vignette : String
  choice_1 : String
  choice_2 : String
deriving DecidableEq, Repr

structure TaggedChoice where
  text : String
  autonomy : String
  beneficence : String
  nonmaleficence : String
  justice : String
deriving DecidableEq, Repr

structure BenchmarkCandidate where
  vignette : String
  choice_1 : TaggedChoice
  choice_2 : TaggedChoice
deriving DecidableEq, Repr

inductive CaseData where
  | draft (c : DraftCase)
  | tagged (c : BenchmarkCandidate)
deriving DecidableEq, Repr

/-! ## Email sanitization (`EvaluationStore._sanitize_email`)

The source runs `re.sub(r'[^\w\-.]', '_', email.lower())` on a Python `str`,
so `\w` has Unicode semantics: it matches `[A-Za-z0-9_]` and every Unicode
word character (alphabetic, decimal, digit or numeric), not just ASCII.
We embed the character predicates exactly on the Latin-1 range
(code points below 0x100); theorems about arbitrary emails carry a Latin-1
hypothesis so that the embedding is only used where it is faithful. -/

/-- Python `str.lower()` restricted to the Latin-1 range: ASCII `A`-`Z` and
the Latin-1 uppercase letters U+00C0-U+00DE (except the multiplication sign
U+00D7) map 32 code points up; every other Latin-1 character is unchanged. -/
def py_lower_char (c : Char) : Char :=
  if (0x41 ≤ c.toNat ∧ c.toNat ≤ 0x5A) ∨
      (0xC0 ≤ c.toNat ∧ c.toNat ≤ 0xDE ∧ c.toNat ≠ 0xD7) then
    Char.ofNat (c.toNat + 32)
  else c

/-- Python's regex class `\w` (on `str`) restricted to the Latin-1 range:
`[A-Za-z0-9_]` plus the Latin-1 word characters ª ² ³ µ ¹ º ¼ ½ ¾ and the
letters U+00C0-U+00FF except × (U+00D7) and ÷ (U+00F7). -/
def is_py_word_char (c : Char) : Bool :=
  let n := c.toNat
  decide (0x61 ≤ n ∧ n ≤ 0x7A) || decide (0x41 ≤ n ∧ n ≤ 0x5A) ||
  decide (0x30 ≤ n ∧ n ≤ 0x39) || decide (n = 0x5F) ||
  decide (n = 0xAA) || decide (n = 0xB2) || decide (n = 0xB3) ||
  decide (n = 0xB5) || decide (n = 0xB9) || decide (n = 0xBA) ||
  decide (0xBC ≤ n ∧ n ≤ 0xBE) || decide (0xC0 ≤ n ∧ n ≤ 0xD6) ||
  decide (0xD8 ≤ n ∧ n ≤ 0xF6) || decide (0xF8 ≤ n ∧ n ≤ 0xFF)

/-- One character of `re.sub(r'[^\w\-.]', '_', ...)`: a character matching
`\w`, `-` or `.` is kept, every other character becomes `_`. -/
def sanitize_char (c : Char) : Char :=
  if is_py_word_char c || c = '-' || c = '.' then c else '_'

/-- `EvaluationStore._sanitize_email`: lowercase the email, then replace
every character outside the `\w`, `-`, `.` class with `_`. -/
def sanitize_email (email : List Char) : List Char :=
  (email.map py_lower_char).map sanitize_char

/-- `EvaluationStore._get_session_file_path` (the file-name component):
`session_` ++ sanitized email ++ `.json`. -/
def session_file_name (email : List Char) : List Char :=
  "session_".toList ++ sanitize_email email ++ ".json".toList

/-- The character class `[A-Za-z0-9_.-]` named by the spec's filename
derivation rule ("replace every character outside `[A-Za-z0-9_.-]`").
This definition transcribes the spec's words, for comparison with the
code's `sanitize_char`. -/
def spec_safe_char (c : Char) : Bool :=
  let n := c.toNat
  decide (0x41 ≤ n ∧ n ≤ 0x5A) || decide (0x61 ≤ n ∧ n ≤ 0x7A) ||
  decide (0x30 ≤ n ∧ n ≤ 0x39) || decide (n = 0x5F) ||
  decide (n = 0x2E) || decide (n = 0x2D)

/-! ## Sessions (`UserSession`, `EvaluationStore` state)

`reviewed_case_ids` is a Python `set`, embedded as a `Finset String`. -/

structure UserSession where
  user_email : String
  session_id : String
  started_at : String
  last_updated : String
  reviewed_case_ids : Finset String
deriving DecidableEq

/-- The mutable state of an `EvaluationStore`: its currently active session
(the `evaluations_dir` path plays no role in the embedded operations). -/
structure StoreState where
  current_session : Option UserSession
deriving DecidableEq

/-- `EvaluationStore.has_reviewed`: `False` with no active session,
otherwise membership of the id in the session's reviewed set. -/
def has_reviewed (store : StoreState) (case_id : String) : Bool :=
  match store.current_session with
  | none => false
  | some session => decide (case_id ∈ session.reviewed_case_ids)

/-- `EvaluationStore.get_unreviewed_cases`: with no active session the input
list is returned unchanged; otherwise the ids already in
`reviewed_case_ids` are filtered out. -/
def get_unreviewed_cases (store : StoreState) (all_case_ids : List String) :
    List String :=
  match store.current_session with
  | none => all_case_ids
  | some session =>
      all_case_ids.filter (fun cid => decide (cid ∉ session.reviewed_case_ids))

/-! ## Session persistence (`save_session` / `_load_session_from_file`)

The session file is a JSON object whose `reviewed_case_ids` entry is
`list(session.reviewed_case_ids)` — an enumeration of the set in an
unspecified order.  `SessionDict` is the embedded file content; the writer
is modelled with a canonical (sorted) enumeration and the round-trip
theorem quantifies over every permutation of it, capturing the
order-independence of the on-disk list. -/

structure SessionDict where
  user_email : String
  session_id : String
  started_at : String
  last_updated : String
  reviewed_case_ids : List String
deriving DecidableEq

/-- `EvaluationStore.save_session` (the serialized dict of lines 164-170):
`last_updated` is refreshed and the reviewed set is enumerated as a list. -/
def save_session_dict (session : UserSession) (now : String) : SessionDict :=
  { user_email := session.user_email
    session_id := session.session_id
    started_at := session.started_at
    last_updated := now
    reviewed_case_ids := session.reviewed_case_ids.sort (· ≤ ·) }

/-- `EvaluationStore._load_session_from_file`: rebuilds a `UserSession`,
turning the stored list back into a set. -/
def load_session_from_file (d : SessionDict) : UserSession :=
  { user_email := d.user_email
    session_id := d.session_id
    started_at := d.started_at
    last_updated := d.last_updated
    reviewed_case_ids := d.reviewed_case_ids.toFinset }

/-! ## CaseRecord and its log

`CaseRecord` itself lives outside the embedded sources (only
`evaluation_store.py` calls it), so its fields and accessors are modelled
from the spec (section 3 and section 4.3): an append-only list of
iterations, each a snapshot with a step tag, plus evaluation metadata on
`human_evaluation` iterations. -/

structure Iteration where
  step_description : String
  data : CaseData
  timestamp : String
  decision : Option String := none
  evaluator : Option String := none
  has_edits : Bool := false
  notes : Option String := none
deriving DecidableEq, Repr

structure CaseRecord where
  case_id : String
  refinement_history : List Iteration
deriving DecidableEq, Repr

/-- The metadata dict returned by `CaseRecord.get_latest_evaluation`, as
consumed by `EvaluationStore` (keys `iteration`, `evaluated_at`,
`decision`, `evaluator`, `has_edits`, `notes`). -/
structure EvalData where
  iteration : Nat
  evaluated_at : String
  decision : String
  evaluator : String
  has_edits : Bool
  notes : Option String
deriving DecidableEq, Repr

/-- Index of the most recent `human_evaluation` entry of a log, if any. -/
def lastEvalIndex (history : List Iteration) : Option Nat :=
  ((history.enum.filter
      (fun p => p.2.step_description == "human_evaluation")).map Prod.fst).getLast?

/-- Modelled from the spec: `CaseRecord.get_latest_evaluation` "returns the
most recent `human_evaluation` Iteration's metadata, or none if absent"
(section 4.3); the metadata carries the iteration's sequence index under the
key `iteration`, as read by `EvaluationStore.get_evaluation`. -/
def get_latest_evaluation (record : CaseRecord) : Option EvalData :=
  match lastEvalIndex record.refinement_history with
  | none => none
  | some e =>
      match record.refinement_history.get? e with
      | none => none
      | some it =>
          some { iteration := e
                 evaluated_at := it.timestamp
                 decision := it.decision.getD ""
                 evaluator := it.evaluator.getD ""
                 has_edits := it.has_edits
                 notes := it.notes }

/-- Modelled from the spec: `CaseRecord.final_case` "returns `data` of the
last Iteration in the log" (section 4.3); `none` on an empty log. -/
def final_case (record : CaseRecord) : Option CaseData :=
  record.refinement_history.getLast?.map (·.data)

/-- Modelled from the spec: `CaseRecord.add_human_evaluation` (section 4.3)
appends a `human_evaluation` iteration whose `data` is `updated_case` if
provided, else the immediately preceding iteration's `data`;
`has_edits = (updated_case is not None)`; invalid decisions are rejected.
An empty log with no `updated_case` has no preceding snapshot and fails. -/
def add_human_evaluation (record : CaseRecord) (decision evaluator : String)
    (updated_case : Option CaseData) (notes : Option String) (now : String) :
    Except String CaseRecord :=
  if decision ≠ "approve" ∧ decision ≠ "reject" then
    Except.error "invalid decision"
  else
    match updated_case, record.refinement_history.getLast? with
    | some c, _ =>
        Except.ok { record with refinement_history :=
          record.refinement_history ++
            [{ step_description := "human_evaluation", data := c,
               timestamp := now, decision := some decision,
               evaluator := some evaluator, has_edits := true,
               notes := notes }] }
    | none, some prev =>
        Except.ok { record with refinement_history :=
          record.refinement_history ++
            [{ step_description := "human_evaluation", data := prev.data,
               timestamp := now, decision := some decision,
               evaluator := some evaluator, has_edits := false,
               notes := notes }] }
    | none, none => Except.error "no prior iteration"

/-! ## Evaluation reconstruction (`EvaluationStore.get_evaluation`) -/

/-- The view object `CaseEvaluation` built by `get_evaluation`.  In the
source, `original_case` is typed `BenchmarkCandidate`; here it holds the
`CaseData` the algorithm computes (the `isinstance` substitution of
line 283 is embedded in `get_evaluation` itself). -/
structure CaseEvaluation where
  case_id : String
  evaluated_at : String
  decision : String
  evaluator : String
  original_case : CaseData
  updated_case : Option CaseData
  notes : Option String
deriving DecidableEq, Repr

/-- The backward scan of lines 259-264: for
`i in range(eval_iteration - 1, -1, -1)`, the first in-range iteration
whose step is not `human_evaluation` yields `original_case`. -/
def scanBackOriginal (history : List Iteration) (e : Nat) : Option CaseData :=
  (List.range e).reverse.findSome? (fun i =>
    match history.get? i with
    | none => none
    | some it =>
        if it.step_description ≠ "human_evaluation" then some it.data else none)

/-- `EvaluationStore.get_evaluation` (lines 234-286).  The case loader is an
oracle `String → Option CaseRecord` standing for
`case_loader.get_case_by_id`.  The final `match` returns `none` only when
the record has an evaluation but an empty history, which cannot happen; it
mirrors the fact that the source would have no case to put in the view. -/
def get_evaluation (loader : String → Option CaseRecord) (case_id : String) :
    Option CaseEvaluation :=
  match loader case_id with
  | none => none
  | some record =>
      match get_latest_evaluation record with
      | none => none
      | some eval_data =>
          let e := eval_data.iteration
          let scanned : Option CaseData :=
            scanBackOriginal record.refinement_history e
          -- "If no pre-evaluation case found, use the first iteration"
          let original : Option CaseData :=
            match scanned with
            | some d => some d
            | none => record.refinement_history.head?.map (·.data)
          let current_case : Option CaseData :=
            match record.refinement_history.get? e with
            | some it => some it.data
            | none => final_case record
          let updated_case : Option CaseData :=
            if eval_data.has_edits then current_case else none
          -- line 283: keep `original` only if it is a BenchmarkCandidate
          let original_final : Option CaseData :=
            match original with
            | some (CaseData.tagged c) => some (CaseData.tagged c)
            | _ => current_case
          match original_final with
          | none => none
          | some oc =>
              some { case_id := case_id
                     evaluated_at := eval_data.evaluated_at
                     decision := eval_data.decision
                     evaluator := eval_data.evaluator
                     original_case := oc
                     updated_case := updated_case
                     notes := eval_data.notes }

/-! ## Recording an evaluation (`EvaluationStore.record_evaluation`) -/

inductive EvalError where
  | invalidState
  | invalidInput
  | notFound
  | persistFailure
deriving DecidableEq, Repr

/-- The collaborators reachable from `record_evaluation`:
`get_case_by_id` and `save_case` belong to the external `CaseLoader`
(`save_case` and the session file write may fail, which the source wraps
into a `RuntimeError`); `now` stands for `datetime.now().isoformat()`. -/
structure LoaderEnv where
  get_case_by_id : String → Option CaseRecord
  save_case_ok : CaseRecord → Bool
  save_session_ok : Bool
  now : String

/-- `EvaluationStore.record_evaluation` (lines 175-226), returning the
store state after the call together with its outcome.  The branch order
mirrors the source: no-session check, decision check, case lookup, then the
`try` block — `add_human_evaluation`, `save_case`, and only then the
session's `reviewed_case_ids.add` followed by `save_session`.  A failing
session write leaves the already-mutated in-memory session in place, as in
the source. -/
def record_evaluation (env : LoaderEnv) (store : StoreState)
    (case_id decision : String) (updated_case : Option CaseData)
    (notes : Option String) : StoreState × Except EvalError Unit :=
  match store.current_session with
  | none => (store, Except.error EvalError.invalidState)
  | some session =>
      if decision = "approve" ∨ decision = "reject" then
        match env.get_case_by_id case_id with
        | none => (store, Except.error EvalError.notFound)
        | some record =>
            match add_human_evaluation record decision session.user_email
                updated_case notes env.now with
            | Except.error _ => (store, Except.error EvalError.persistFailure)
            | Except.ok record1 =>
                if env.save_case_ok record1 then
                  let session1 := { session with
                    reviewed_case_ids := insert case_id session.reviewed_case_ids
                    last_updated := env.now }
                  let store1 : StoreState := { current_session := some session1 }
                  if env.save_session_ok then (store1, Except.ok ())
                  else (store1, Except.error EvalError.persistFailure)
                else (store, Except.error EvalError.persistFailure)
      else (store, Except.error EvalError.invalidInput)

/-! ## Critique-refine loop (`generator.py`, lines 25-91)

The three rubric audits and the refinement call are LLM collaborators,
modelled as oracles over the current draft.  `critique_round` is one
iteration of the `for i in range(2)` body; the script state is the `draft`
variable, replaced unconditionally by the refinement output. -/

structure RubricResult where
  overall_pass : Bool
  all_suggested_changes : String
deriving DecidableEq, Repr

structure CritiqueEnv where
  clinical : DraftCase → RubricResult
  ethical : DraftCase → RubricResult
  stylistic : DraftCase → RubricResult
  refine : DraftCase → String → String → String → DraftCase

/-- One round of the critique-refine loop: run the three audits on the
current draft, turn each into feedback (`all_suggested_changes` on failure,
the sentinel "No issues detected." on pass) and hand everything to the
refinement call, whose output becomes the new draft. -/
def critique_round (env : CritiqueEnv) (draft : DraftCase) : DraftCase :=
  let clinical_rubric := env.clinical draft
  let ethical_rubric := env.ethical draft
  let stylistic_rubric := env.stylistic draft
  let clinical_feedback :=
    if !clinical_rubric.overall_pass then clinical_rubric.all_suggested_changes
    else "No issues detected."
  let ethical_feedback :=
    if !ethical_rubric.overall_pass then ethical_rubric.all_suggested_changes
    else "No issues detected."
  let stylistic_feedback :=
    if !stylistic_rubric.overall_pass then stylistic_rubric.all_suggested_changes
    else "No issues detected."
  env.refine draft clinical_feedback ethical_feedback stylistic_feedback

/-- `k` rounds of the loop, also counting how many refinement calls (that
is, rounds) actually execute. -/
def critique_refine_rounds (env : CritiqueEnv) :
    Nat → DraftCase → DraftCase × Nat
  | 0, draft => (draft, 0)
  | k + 1, draft =>
      let refined := critique_round env draft
      let rest := critique_refine_rounds env k refined
      (rest.1, rest.2 + 1)

/-- The loop as the script runs it: `for i in range(2)`. -/
def critique_refine_loop (env : CritiqueEnv) (draft : DraftCase) :
    DraftCase × Nat :=
  critique_refine_rounds env 2 draft

/-! ## Value-clarification loop (`generator.py`, lines 94-141)

After tagging, the script walks the four value axes; for any axis where
either choice's tag differs from `'neutral'` it runs a clarification audit,
collects `(value, failing_suggested_changes)` for each failing audit, and
finally runs a single batched `improve_values` call when the collected list
is non-empty.  The audits performed are recorded alongside the result so
that "the audit is invoked iff ..." is a statement about the embedding. -/

structure ValueRubric where
  overall_pass : Bool
  failing_suggested_changes : List String
deriving DecidableEq, Repr

structure ValueEnv where
  tag_values : DraftCase → BenchmarkCandidate
  value_audit : String → String → String → DraftCase → ValueRubric
  improve_values : DraftCase → List (String × List String) → BenchmarkCandidate

/-- The list `['autonomy', 'beneficence', 'nonmaleficence', 'justice']`
iterated by the loop. -/
def value_axes : List String :=
  ["autonomy", "beneficence", "nonmaleficence", "justice"]

/-- `choice.__dict__[value]`: dynamic attribute lookup of an axis tag on a
tagged choice.  Only ever called with the four axis names; any other key
would be a `KeyError` in the source, rendered here as `""`. -/
def tagOf (choice : TaggedChoice) (value : String) : String :=
  if value = "autonomy" then choice.autonomy
  else if value = "beneficence" then choice.beneficence
  else if value = "nonmaleficence" then choice.nonmaleficence
  else if value = "justice" then choice.justice
  else ""

/-- The loop guard `tag_1 != 'neutral' or tag_2 != 'neutral'` for one axis
of a tagged case. -/
def axisNonNeutral (cwv : BenchmarkCandidate) (value : String) : Bool :=
  tagOf cwv.choice_1 value != "neutral" || tagOf cwv.choice_2 value != "neutral"

/-- The body of the `for value in [...]` loop, threading two accumulators:
the axes whose clarification audit was invoked, and the collected
`value_adjustments`. -/
def clarify_step (env : ValueEnv) (draft : DraftCase)
    (cwv : BenchmarkCandidate)
    (acc : List String × List (String × List String)) (value : String) :
    List String × List (String × List String) :=
  let tag_1 := tagOf cwv.choice_1 value
  let tag_2 := tagOf cwv.choice_2 value
  if tag_1 != "neutral" || tag_2 != "neutral" then
    let value_rubric := env.value_audit value tag_1 tag_2 draft
    if !value_rubric.overall_pass then
      (acc.1 ++ [value], acc.2 ++ [(value, value_rubric.failing_suggested_changes)])
    else
      (acc.1 ++ [value], acc.2)
  else acc

/-- The whole value-clarification stage: tag, audit per non-neutral axis,
then one batched `improve_values` call iff any adjustments were collected.
Returns (final tagged case, audited axes, collected adjustments). -/
def value_clarification (env : ValueEnv) (draft : DraftCase) :
    BenchmarkCandidate × List String × List (String × List String) :=
  let case_with_values := env.tag_values draft
  let folded := value_axes.foldl (clarify_step env draft case_with_values) ([], [])
  let value_adjustments := folded.2
  let final :=
    if value_adjustments ≠ [] then env.improve_values draft value_adjustments
    else case_with_values
  (final, folded.1, value_adjustments)

/-! ## Example fixtures

Concrete stores, sessions and case records used by witness and
counterexample theorems. -/

def exSessionB : UserSession :=
  { user_email := "u@x.com", session_id := "s1", started_at := "t0",
    last_updated := "t1", reviewed_case_ids := {"b"} }

def exStoreB : StoreState := { current_session := some exSessionB }

def exSessionEmpty : UserSession :=
  { user_email := "u@x.com", session_id := "s1", started_at := "t0",
    last_updated := "t1", reviewed_case_ids := ∅ }

def exStoreEmpty : StoreState := { current_session := some exSessionEmpty }

def draftA : DraftCase :=
  { vignette := "vA", choice_1 := "c1A", choice_2 := "c2A" }

def neutralChoice (text : String) : TaggedChoice :=
  { text := text, autonomy := "neutral", beneficence := "neutral",
    nonmaleficence := "neutral", justice := "neutral" }

def taggedB : BenchmarkCandidate :=
  { vignette := "vB", choice_1 := neutralChoice "c1B",
    choice_2 := neutralChoice "c2B" }

def taggedC : BenchmarkCandidate :=
  { vignette := "vC",
    choice_1 := { neutralChoice "c1C" with autonomy := "positive" },
    choice_2 := neutralChoice "c2C" }

def exDraftRecord : CaseRecord :=
  { case_id := "case_1",
    refinement_history :=
      [{ step_description := "draft", data := CaseData.draft draftA,
         timestamp := "t" }] }

def exLoaderDraft : String → Option CaseRecord := fun cid =>
  if cid = "case_1" then some exDraftRecord else none

def exRecEnv : LoaderEnv :=
  { get_case_by_id := exLoaderDraft
    save_case_ok := fun _ => true
    save_session_ok := true
    now := "t2" }

/-! ## Theorems -/

/-- C10: when no session is active, the read-side operations do not raise:
`has_reviewed` returns `false` for every case id, and
`get_unreviewed_cases` returns the input list itself, unchanged. -/
theorem no_session_reads (store : StoreState) (case_id : String)
    (all_case_ids : List String)
    (h : store.current_session = none) :
    has_reviewed store case_id = false
    ∧ get_unreviewed_cases store all_case_ids = all_case_ids := by
  unfold has_reviewed get_unreviewed_cases
  rw [h]
  exact ⟨rfl, rfl⟩

/-- Witness for `no_session_reads` at a concrete empty store. -/
theorem no_session_reads_witness :
    has_reviewed { current_session := none } "case_7" = false
    ∧ get_unreviewed_cases { current_session := none } ["a", "b"] = ["a", "b"] :=
  no_session_reads { current_session := none } "case_7" ["a", "b"] rfl

/-- C8: with an active session, `get_unreviewed_cases` returns exactly the
elements of the input that are not in the session's `reviewed_case_ids`, in
the same relative order (a sublist of the input, with membership and even
multiplicities characterized), for every input list including `[]` and
every session including one with an empty reviewed set. -/
theorem get_unreviewed_cases_spec (store : StoreState) (session : UserSession)
    (all_case_ids : List String)
    (h : store.current_session = some session) :
    List.Sublist (get_unreviewed_cases store all_case_ids) all_case_ids
    ∧ (∀ cid, cid ∈ get_unreviewed_cases store all_case_ids ↔
        cid ∈ all_case_ids ∧ cid ∉ session.reviewed_case_ids)
    ∧ (∀ cid, (get_unreviewed_cases store all_case_ids).count cid =
        if cid ∈ session.reviewed_case_ids then 0 else all_case_ids.count cid) := by
  unfold get_unreviewed_cases
  rw [h]
  refine ⟨List.filter_sublist _, ?_, ?_⟩
  · intro cid
    simp [List.mem_filter]
  · intro cid
    by_cases hc : cid ∈ session.reviewed_case_ids
    · rw [if_pos hc, List.count_eq_zero]
      simp [List.mem_filter, hc]
    · rw [if_neg hc]
      exact List.count_filter (by simp [hc])

/-- Witness for `get_unreviewed_cases_spec`: a session that has reviewed
`b` drops it from `[a, b, c]` and keeps `a`. -/
theorem get_unreviewed_cases_spec_witness :
    "b" ∉ get_unreviewed_cases exStoreB ["a", "b", "c"]
    ∧ "a" ∈ get_unreviewed_cases exStoreB ["a", "b", "c"] := by
  have h := get_unreviewed_cases_spec exStoreB exSessionB ["a", "b", "c"] rfl
  constructor
  · intro hb
    exact absurd ((h.2.1 "b").mp hb) (by decide)
  · exact (h.2.1 "a").mpr (by decide)

/-- C9: for a case id not yet in the active session's reviewed set,
`has_reviewed` is `false` before `record_evaluation` and `true` on the
store state a successful `record_evaluation` returns. -/
theorem has_reviewed_after_record (env : LoaderEnv) (store : StoreState)
    (session : UserSession) (case_id decision : String)
    (updated_case : Option CaseData) (notes : Option String)
    (h : store.current_session = some session)
    (hnew : case_id ∉ session.reviewed_case_ids) :
    has_reviewed store case_id = false
    ∧ (∀ store1,
        record_evaluation env store case_id decision updated_case notes
          = (store1, Except.ok ()) →
        has_reviewed store1 case_id = true) := by
  constructor
  · unfold has_reviewed
    rw [h]
    simp [hnew]
  · intro store1 hrec
    unfold record_evaluation at hrec
    rw [h] at hrec
    repeat' split at hrec
    all_goals simp_all [has_reviewed]
    rw [← hrec]
    simp

/-- Witness for `has_reviewed_after_record`: recording an approval for a
fresh case id flips `has_reviewed` from `false` to `true`. -/
theorem has_reviewed_after_record_witness :
    has_reviewed exStoreEmpty "case_1" = false
    ∧ has_reviewed
        (record_evaluation exRecEnv exStoreEmpty "case_1" "approve" none none).1
        "case_1" = true := by
  have h := has_reviewed_after_record exRecEnv exStoreEmpty exSessionEmpty
    "case_1" "approve" none none rfl (by decide)
  exact ⟨h.1, h.2 _ rfl⟩

/-- C7: saving a session and loading the resulting file content back yields
the same `reviewed_case_ids` set — for every permutation `l` of the
serialized id list, so independently of the order `list(set)` happens to
produce — and preserves `user_email` and `session_id`. -/
theorem session_round_trip (session : UserSession) (now : String)
    (l : List String)
    (h : List.Perm l (save_session_dict session now).reviewed_case_ids) :
    (load_session_from_file
        { save_session_dict session now with
          reviewed_case_ids := l }).reviewed_case_ids
      = session.reviewed_case_ids
    ∧ (load_session_from_file
        { save_session_dict session now with
          reviewed_case_ids := l }).user_email
      = session.user_email
    ∧ (load_session_from_file
        { save_session_dict session now with
          reviewed_case_ids := l }).session_id
      = session.session_id := by
  refine ⟨?_, rfl, rfl⟩
  show l.toFinset = _
  rw [List.toFinset_eq_of_perm _ _ h]
  simp [save_session_dict, Finset.sort_toFinset]

/-- Witness for `session_round_trip`: the reversed serialization of the set
`{a, b}` loads back to `{a, b}`. -/
theorem session_round_trip_witness :
    (load_session_from_file
        { save_session_dict exSessionB "t2" with
          reviewed_case_ids :=
            ((save_session_dict exSessionB "t2").reviewed_case_ids).reverse
        }).reviewed_case_ids
      = exSessionB.reviewed_case_ids :=
  (session_round_trip exSessionB "t2"
    ((save_session_dict exSessionB "t2").reviewed_case_ids).reverse
    (List.reverse_perm _)).1

/-- Evaluating `Char.ofNat` below the surrogate range recovers the code
point. -/
theorem toNat_ofNat_valid (n : Nat) (h : n < 0xd800) :
    (Char.ofNat n).toNat = n := by
  rw [Char.ofNat, dif_pos (Or.inl h)]
  rfl

/-- `py_lower_char` maps ASCII characters to ASCII characters. -/
theorem py_lower_char_ascii (c : Char) (h : c.toNat < 0x80) :
    (py_lower_char c).toNat < 0x80 := by
  unfold py_lower_char
  split
  case isTrue hcond =>
    have hr : 0x41 ≤ c.toNat ∧ c.toNat ≤ 0x5A := by
      rcases hcond with h1 | h2
      · exact h1
      · omega
    rw [toNat_ofNat_valid _ (by omega)]
    omega
  case isFalse => exact h

/-- `sanitize_char` maps ASCII characters to ASCII characters. -/
theorem sanitize_char_ascii (c : Char) (h : c.toNat < 0x80) :
    (sanitize_char c).toNat < 0x80 := by
  unfold sanitize_char
  split
  · exact h
  · decide

/-- Every ASCII character that `sanitize_char` outputs lies in the spec's
class `[A-Za-z0-9_.-]`. -/
theorem spec_safe_sanitize_char (c : Char)
    (h : (sanitize_char c).toNat < 0x80) :
    spec_safe_char (sanitize_char c) = true := by
  unfold sanitize_char at *
  split at h
  case isTrue hk =>
    rw [if_pos (by assumption)] at *
    rcases Bool.or_eq_true_iff.mp hk with hk1 | hdot
    · rcases Bool.or_eq_true_iff.mp hk1 with hw | hdash
      · unfold is_py_word_char at hw
        unfold spec_safe_char
        simp only [Bool.or_eq_true, decide_eq_true_eq] at hw ⊢
        omega
      · rw [decide_eq_true_eq] at hdash
        subst hdash
        decide
    · rw [decide_eq_true_eq] at hdot
      subst hdot
      decide
  case isFalse =>
    rw [if_neg (by assumption)]
    decide

/-- C5 (counterexample): the claim says no character outside
`[A-Za-z0-9_.-]` — non-ASCII letters included — survives into the session
filename, but for the email `é@x.com` the letter `é` (a Unicode word
character, which Python's `\w` matches) survives, and `é` is outside the
class. -/
theorem sanitize_email_claim_counterexample :
    'é' ∈ session_file_name "é@x.com".toList
    ∧ spec_safe_char 'é' = false := by
  constructor
  · decide
  · decide

/-- C5 (corrected): the filename is `session_` ++ sanitized ++ `.json`
where sanitizing lowercases and replaces every character not matching
Python's Unicode `\w` class and not `-` or `.` by `_`.  Consequently every
ASCII character of the filename lies in the spec's class `[A-Za-z0-9_.-]`,
and for emails made of ASCII characters only the spec's derivation rule
holds in full; non-ASCII word characters, however, survive (see the
counterexample).  Stated on Latin-1 emails, where the embedding of
Python's `str.lower` and `\w` is exact. -/
theorem session_file_name_spec (email : List Char)
    (hdom : ∀ c ∈ email, c.toNat < 0x100) :
    (∀ c ∈ session_file_name email, c.toNat < 0x80 → spec_safe_char c = true)
    ∧ ((∀ c ∈ email, c.toNat < 0x80) →
        ∀ c ∈ session_file_name email, spec_safe_char c = true) := by
  have hmem : ∀ c ∈ session_file_name email,
      c ∈ "session_".toList ∨ c ∈ ".json".toList
      ∨ ∃ d ∈ email, c = sanitize_char (py_lower_char d) := by
    intro c hc
    unfold session_file_name sanitize_email at hc
    rcases List.mem_append.mp hc with hc1 | hc2
    · rcases List.mem_append.mp hc1 with hpre | hmid
      · exact Or.inl hpre
      · rcases List.mem_map.mp hmid with ⟨b, hb, rfl⟩
        rcases List.mem_map.mp hb with ⟨d, hd, rfl⟩
        exact Or.inr (Or.inr ⟨d, hd, rfl⟩)
    · exact Or.inr (Or.inl hc2)
  have hpre_safe : ∀ c ∈ "session_".toList, spec_safe_char c = true := by
    decide
  have hsuf_safe : ∀ c ∈ ".json".toList, spec_safe_char c = true := by
    decide
  constructor
  · intro c hc hascii
    rcases hmem c hc with hpre | hsuf | ⟨d, hd, rfl⟩
    · exact hpre_safe c hpre
    · exact hsuf_safe c hsuf
    · exact spec_safe_sanitize_char _ hascii
  · intro hall c hc
    rcases hmem c hc with hpre | hsuf | ⟨d, hd, rfl⟩
    · exact hpre_safe c hpre
    · exact hsuf_safe c hsuf
    · exact spec_safe_sanitize_char _
        (sanitize_char_ascii _ (py_lower_char_ascii _ (hall d hd)))

/-- Witness for `session_file_name_spec`: the email `U.ser-1@Ex.com` is
Latin-1 (indeed ASCII), and the derived filename
`session_u.ser-1_ex.com.json` consists of spec-class characters only. -/
theorem session_file_name_spec_witness :
    session_file_name "U.ser-1@Ex.com".toList
      = "session_u.ser-1_ex.com.json".toList
    ∧ ∀ c ∈ session_file_name "U.ser-1@Ex.com".toList,
        spec_safe_char c = true := by
  refine ⟨by decide, ?_⟩
  exact (session_file_name_spec "U.ser-1@Ex.com".toList (by decide)).2
    (by decide)

/-- C2: `record_evaluation` raises invalid-state with no active session,
invalid-input for a decision outside `{approve, reject}`, not-found for a
case id with no backing `CaseRecord`, and an error when adding or
persisting the evaluation fails — in all these cases the store (hence the
session's `reviewed_case_ids`) is returned unchanged.  Conversely, any
change to the store implies the evaluation was successfully added and
`save_case` succeeded, with the new session being exactly the old one plus
`case_id`. -/
theorem record_evaluation_atomicity (env : LoaderEnv) (store : StoreState)
    (case_id decision : String) (updated_case : Option CaseData)
    (notes : Option String) :
    (store.current_session = none →
      record_evaluation env store case_id decision updated_case notes
        = (store, Except.error EvalError.invalidState))
    ∧ (store.current_session ≠ none →
        decision ≠ "approve" → decision ≠ "reject" →
        record_evaluation env store case_id decision updated_case notes
          = (store, Except.error EvalError.invalidInput))
    ∧ (store.current_session ≠ none →
        (decision = "approve" ∨ decision = "reject") →
        env.get_case_by_id case_id = none →
        record_evaluation env store case_id decision updated_case notes
          = (store, Except.error EvalError.notFound))
    ∧ (∀ session record, store.current_session = some session →
        (decision = "approve" ∨ decision = "reject") →
        env.get_case_by_id case_id = some record →
        ((∃ e, add_human_evaluation record decision session.user_email
              updated_case notes env.now = Except.error e)
          ∨ (∃ record1, add_human_evaluation record decision session.user_email
                updated_case notes env.now = Except.ok record1
              ∧ env.save_case_ok record1 = false)) →
        record_evaluation env store case_id decision updated_case notes
          = (store, Except.error EvalError.persistFailure))
    ∧ (∀ store1 res,
        record_evaluation env store case_id decision updated_case notes
          = (store1, res) →
        store1 ≠ store →
        ∃ session record record1,
          store.current_session = some session
          ∧ env.get_case_by_id case_id = some record
          ∧ add_human_evaluation record decision session.user_email
              updated_case notes env.now = Except.ok record1
          ∧ env.save_case_ok record1 = true
          ∧ store1.current_session = some { session with
              reviewed_case_ids := insert case_id session.reviewed_case_ids
              last_updated := env.now }) := by
  obtain ⟨cs⟩ := store
  refine ⟨?_, ?_, ?_, ?_, ?_⟩
  · intro h
    obtain rfl : cs = none := h
    rfl
  · intro hs h1 h2
    cases cs with
    | none => exact absurd rfl hs
    | some session =>
      unfold record_evaluation
      dsimp only
      rw [if_neg (by simp [h1, h2])]
  · intro hs hdec hnone
    cases cs with
    | none => exact absurd rfl hs
    | some session =>
      unfold record_evaluation
      dsimp only
      rw [if_pos hdec, hnone]
  · intro session record hsession hdec hrecord hfail
    obtain rfl : cs = some session := hsession
    unfold record_evaluation
    dsimp only
    rw [if_pos hdec, hrecord]
    dsimp only
    rcases hfail with ⟨e, he⟩ | ⟨record1, hok, hsave⟩
    · rw [he]
    · rw [hok]
      dsimp only
      rw [if_neg (by simp [hsave])]
  · intro store1 res hrec hchange
    unfold record_evaluation at hrec
    cases cs with
    | none =>
      rw [Prod.mk.injEq] at hrec
      exact absurd hrec.1.symm hchange
    | some session =>
      dsimp only at hrec
      refine ⟨session, ?_⟩
      split at hrec
      · split at hrec
        · rw [Prod.mk.injEq] at hrec
          exact absurd hrec.1.symm hchange
        · rename_i record hrecord
          refine ⟨record, ?_⟩
          split at hrec
          · rw [Prod.mk.injEq] at hrec
            exact absurd hrec.1.symm hchange
          · rename_i record1 hok
            refine ⟨record1, rfl, hrecord, hok, ?_⟩
            split at hrec
            · split at hrec
              all_goals
                rw [Prod.mk.injEq] at hrec
              all_goals
                exact ⟨by assumption, by rw [← hrec.1]⟩
            · rw [Prod.mk.injEq] at hrec
              exact absurd hrec.1.symm hchange
      · rw [Prod.mk.injEq] at hrec
        exact absurd hrec.1.symm hchange

/-- Witness for `record_evaluation_atomicity`: with an active session, the
decision `maybe` yields invalid-input and an untouched store, and a case id
with no backing record yields not-found and an untouched store. -/
theorem record_evaluation_atomicity_witness :
    record_evaluation exRecEnv exStoreEmpty "case_1" "maybe" none none
      = (exStoreEmpty, Except.error EvalError.invalidInput)
    ∧ record_evaluation exRecEnv exStoreEmpty "case_9" "approve" none none
      = (exStoreEmpty, Except.error EvalError.notFound) :=
  ⟨(record_evaluation_atomicity exRecEnv exStoreEmpty "case_1" "maybe"
      none none).2.1 (by decide) (by decide) (by decide),
   (record_evaluation_atomicity exRecEnv exStoreEmpty "case_9" "approve"
      none none).2.2.1 (by decide) (Or.inl rfl) (by decide)⟩

/-- A log in which no entry is a `human_evaluation` filters to the empty
list of evaluation entries, whatever the starting index. -/
theorem filter_eval_enumFrom_nil (l : List Iteration) (k : Nat)
    (h : ∀ it ∈ l, it.step_description ≠ "human_evaluation") :
    (List.enumFrom k l).filter
      (fun p => p.2.step_description == "human_evaluation") = [] := by
  induction l generalizing k with
  | nil => rfl
  | cons a tl ih =>
    rw [List.enumFrom, List.filter_cons]
    have ha : (a.step_description == "human_evaluation") = false := by
      simp only [beq_eq_false_iff_ne, ne_eq]
      exact h a (by simp)
    simp only [ha, Bool.false_eq_true, if_neg, reduceIte]
    exact ih _ (fun it hit => h it (by simp [hit]))

/-- C6: `get_evaluation` returns `none` (not an error) for a record with no
`human_evaluation` iteration, and for a log consisting of a single
iteration that is itself a `human_evaluation`, the returned view's
`original_case` falls back to that same iteration's `data`. -/
theorem get_evaluation_edge_cases (loader : String → Option CaseRecord)
    (cid : String) (record : CaseRecord)
    (h : loader cid = some record) :
    ((∀ it ∈ record.refinement_history,
        it.step_description ≠ "human_evaluation") →
      get_evaluation loader cid = none)
    ∧ (∀ it, record.refinement_history = [it] →
        it.step_description = "human_evaluation" →
        ∃ view, get_evaluation loader cid = some view
          ∧ view.original_case = it.data) := by
  constructor
  · intro hno
    unfold get_evaluation
    rw [h]
    dsimp only
    have hnone : get_latest_evaluation record = none := by
      unfold get_latest_evaluation lastEvalIndex
      rw [show record.refinement_history.enum
            = List.enumFrom 0 record.refinement_history from rfl]
      rw [filter_eval_enumFrom_nil _ _ hno]
      rfl
    rw [hnone]
  · intro it hsingle hstep
    have hlast : lastEvalIndex record.refinement_history = some 0 := by
      unfold lastEvalIndex
      rw [hsingle]
      simp [List.enum, List.enumFrom, List.filter_cons, hstep]
    have hled : get_latest_evaluation record
        = some { iteration := 0, evaluated_at := it.timestamp,
                 decision := it.decision.getD "",
                 evaluator := it.evaluator.getD "",
                 has_edits := it.has_edits, notes := it.notes } := by
      unfold get_latest_evaluation
      rw [hlast, hsingle]
      rfl
    unfold get_evaluation
    rw [h]
    dsimp only
    rw [hled]
    dsimp only
    rw [show scanBackOriginal record.refinement_history 0 = none from rfl]
    rw [hsingle]
    dsimp only
    rw [show Option.map (fun x => x.data) [it].head? = some it.data from rfl]
    rw [show [it].get? 0 = some it from rfl]
    cases hd : it.data with
    | draft c => exact ⟨_, rfl, hd⟩
    | tagged c => exact ⟨_, rfl, rfl⟩

def exSingleEvalRecord : CaseRecord :=
  { case_id := "case_s",
    refinement_history :=
      [{ step_description := "human_evaluation",
         data := CaseData.tagged taggedC, timestamp := "t1",
         decision := some "approve", evaluator := some "u",
         has_edits := false, notes := none }] }

def exLoaderSingle : String → Option CaseRecord := fun cid =>
  if cid = "case_s" then some exSingleEvalRecord else none

/-- Witness for `get_evaluation_edge_cases`: a draft-only record yields
`none`, and a single-`human_evaluation` record yields a view whose
`original_case` is that iteration's own data. -/
theorem get_evaluation_edge_cases_witness :
    get_evaluation exLoaderDraft "case_1" = none
    ∧ ∃ view, get_evaluation exLoaderSingle "case_s" = some view
        ∧ view.original_case = CaseData.tagged taggedC := by
  constructor
  · exact (get_evaluation_edge_cases exLoaderDraft "case_1" exDraftRecord
      (by decide)).1 (by decide)
  · exact (get_evaluation_edge_cases exLoaderSingle "case_s"
      exSingleEvalRecord (by decide)).2
      { step_description := "human_evaluation",
        data := CaseData.tagged taggedC, timestamp := "t1",
        decision := some "approve", evaluator := some "u",
        has_edits := false, notes := none } rfl rfl

def cxEvalRecord : CaseRecord :=
  { case_id := "case_cx",
    refinement_history :=
      [{ step_description := "draft", data := CaseData.draft draftA,
         timestamp := "t0" },
       { step_description := "human_evaluation",
         data := CaseData.tagged taggedC, timestamp := "t1",
         decision := some "reject", evaluator := some "u",
         has_edits := true, notes := none }] }

def cxLoader : String → Option CaseRecord := fun cid =>
  if cid = "case_cx" then some cxEvalRecord else none

/-- C1 (counterexample): on the log `[draft(A), human_evaluation(C)]` the
most recent evaluation is at index 1, the nearest prior non-evaluation
iteration's data is the draft-shaped `A` — so the claim demands
`original_case = A` — yet `get_evaluation` returns `original_case = C`:
when the scanned-back snapshot is not a `BenchmarkCandidate`, line 283
substitutes the evaluation snapshot for it. -/
theorem get_evaluation_claim_counterexample :
    lastEvalIndex cxEvalRecord.refinement_history = some 1
    ∧ scanBackOriginal cxEvalRecord.refinement_history 1
        = some (CaseData.draft draftA)
    ∧ (get_evaluation cxLoader "case_cx").map (fun v => v.original_case)
        = some (CaseData.tagged taggedC)
    ∧ CaseData.tagged taggedC ≠ CaseData.draft draftA := by
  refine ⟨by decide, by decide, by decide, by decide⟩

/-- C1 (corrected): for a record whose latest `human_evaluation` sits at
index `e` (with iteration `it` there), `get_evaluation` returns a view
whose `updated_case` is the data of iteration `e` exactly when `has_edits`
is set, and whose `original_case` is the data of the nearest prior
non-evaluation iteration **when that data has the tagged
`BenchmarkCandidate` shape** — when it is draft-shaped, the evaluation
snapshot (iteration `e`'s data) is substituted instead.  The remaining
metadata is copied from the evaluation. -/
theorem get_evaluation_reconstruction (loader : String → Option CaseRecord)
    (cid : String) (record : CaseRecord) (ed : EvalData) (it : Iteration)
    (h1 : loader cid = some record)
    (h2 : get_latest_evaluation record = some ed)
    (h3 : record.refinement_history.get? ed.iteration = some it) :
    ∃ view, get_evaluation loader cid = some view
      ∧ view.updated_case = (if ed.has_edits then some it.data else none)
      ∧ (∀ B, scanBackOriginal record.refinement_history ed.iteration
            = some (CaseData.tagged B) →
          view.original_case = CaseData.tagged B)
      ∧ (∀ D, scanBackOriginal record.refinement_history ed.iteration
            = some (CaseData.draft D) →
          view.original_case = it.data)
      ∧ view.case_id = cid ∧ view.evaluated_at = ed.evaluated_at
      ∧ view.decision = ed.decision ∧ view.evaluator = ed.evaluator
      ∧ view.notes = ed.notes := by
  unfold get_evaluation
  rw [h1]
  dsimp only
  rw [h2]
  dsimp only
  rw [h3]
  dsimp only
  cases hscan : scanBackOriginal record.refinement_history ed.iteration with
  | none =>
    cases hhead : record.refinement_history.head? with
    | none =>
      refine ⟨_, rfl, rfl, ?_, ?_, rfl, rfl, rfl, rfl, rfl⟩
      · intro B hB
        simp at hB
      · intro D hD
        simp at hD
    | some it0 =>
      rw [show Option.map (fun x => x.data) (some it0) = some it0.data from rfl]
      cases hd0 : it0.data with
      | draft c =>
        refine ⟨_, rfl, rfl, ?_, ?_, rfl, rfl, rfl, rfl, rfl⟩
        · intro B hB
          simp at hB
        · intro D hD
          simp at hD
      | tagged c =>
        refine ⟨_, rfl, rfl, ?_, ?_, rfl, rfl, rfl, rfl, rfl⟩
        · intro B hB
          simp at hB
        · intro D hD
          simp at hD
  | some d =>
    cases d with
    | draft D0 =>
      refine ⟨_, rfl, rfl, ?_, ?_, rfl, rfl, rfl, rfl, rfl⟩
      · intro B hB
        simp at hB
      · intro D hD
        rfl
    | tagged B0 =>
      refine ⟨_, rfl, rfl, ?_, ?_, rfl, rfl, rfl, rfl, rfl⟩
      · intro B hB
        exact Option.some.inj hB
      · intro D hD
        simp at hD

def exThreeRecord : CaseRecord :=
  { case_id := "case_3",
    refinement_history :=
      [{ step_description := "draft", data := CaseData.draft draftA,
         timestamp := "t0" },
       { step_description := "refined", data := CaseData.tagged taggedB,
         timestamp := "t1" },
       { step_description := "human_evaluation",
         data := CaseData.tagged taggedC, timestamp := "t2",
         decision := some "reject", evaluator := some "u",
         has_edits := true, notes := none }] }

def exThreeLoader : String → Option CaseRecord := fun cid =>
  if cid = "case_3" then some exThreeRecord else none

/-- Witness for `get_evaluation_reconstruction` on the spec's example log
`[draft(A), refined(B), human_evaluation(C, has_edits)]` with `B` tagged:
`original_case = B` and `updated_case = C`. -/
theorem get_evaluation_reconstruction_witness :
    ∃ view, get_evaluation exThreeLoader "case_3" = some view
      ∧ view.original_case = CaseData.tagged taggedB
      ∧ view.updated_case = some (CaseData.tagged taggedC) := by
  obtain ⟨view, hv, hupd, htagged, hdraft, hrest⟩ :=
    get_evaluation_reconstruction exThreeLoader "case_3" exThreeRecord
      { iteration := 2, evaluated_at := "t2", decision := "reject",
        evaluator := "u", has_edits := true, notes := none }
      { step_description := "human_evaluation",
        data := CaseData.tagged taggedC, timestamp := "t2",
        decision := some "reject", evaluator := some "u",
        has_edits := true, notes := none }
      (by decide) (by decide) (by decide)
  refine ⟨view, hv, htagged taggedB (by decide), ?_⟩
  rw [hupd]
  decide

/-- C3: the critique-refine loop executes exactly K = 2 rounds for every
audit/refinement oracle and every input case, each round replacing the
current case with the refinement output unconditionally; in particular,
even when all three audit dimensions pass on the first round, the loop
still runs a second round on the refinement of the first (no early exit,
no conditional replacement). -/
theorem critique_refine_fixed_rounds (env : CritiqueEnv) (draft : DraftCase) :
    (critique_refine_loop env draft).2 = 2
    ∧ (critique_refine_loop env draft).1
        = critique_round env (critique_round env draft)
    ∧ ((env.clinical draft).overall_pass = true →
        (env.ethical draft).overall_pass = true →
        (env.stylistic draft).overall_pass = true →
        (critique_refine_loop env draft).2 = 2
        ∧ (critique_refine_loop env draft).1
            = critique_round env
                (env.refine draft "No issues detected." "No issues detected."
                  "No issues detected.")) := by
  refine ⟨rfl, rfl, ?_⟩
  intro h1 h2 h3
  refine ⟨rfl, ?_⟩
  have hone : critique_round env draft
      = env.refine draft "No issues detected." "No issues detected."
          "No issues detected." := by
    unfold critique_round
    simp only [h1, h2, h3]
    simp
  show critique_round env (critique_round env draft) = _
  rw [hone]

/-- Witness for `critique_refine_fixed_rounds`: with audits that always
pass and a refinement that appends `!` to the vignette, the loop still
refines twice. -/
theorem critique_refine_fixed_rounds_witness :
    (critique_refine_loop
        { clinical := fun _ =>
            { overall_pass := true, all_suggested_changes := "" }
          ethical := fun _ =>
            { overall_pass := true, all_suggested_changes := "" }
          stylistic := fun _ =>
            { overall_pass := true, all_suggested_changes := "" }
          refine := fun d _ _ _ =>
            { d with vignette := d.vignette ++ "!" } }
        draftA).2 = 2
    ∧ (critique_refine_loop
        { clinical := fun _ =>
            { overall_pass := true, all_suggested_changes := "" }
          ethical := fun _ =>
            { overall_pass := true, all_suggested_changes := "" }
          stylistic := fun _ =>
            { overall_pass := true, all_suggested_changes := "" }
          refine := fun d _ _ _ =>
            { d with vignette := d.vignette ++ "!" } }
        draftA).1.vignette = "vA!!" := by
  have h := critique_refine_fixed_rounds
    { clinical := fun _ => { overall_pass := true, all_suggested_changes := "" }
      ethical := fun _ => { overall_pass := true, all_suggested_changes := "" }
      stylistic := fun _ =>
        { overall_pass := true, all_suggested_changes := "" }
      refine := fun d _ _ _ => { d with vignette := d.vignette ++ "!" } }
    draftA
  obtain ⟨hc, -⟩ := h.2.2 rfl rfl rfl
  exact ⟨hc, by rw [h.2.1]; rfl⟩

/-- Unrolling the axis fold of the value-clarification loop: the audited
axes are exactly the non-neutral ones, and the collected adjustments are
exactly the failing audits' suggestions, in axis order. -/
theorem clarify_foldl (env : ValueEnv) (draft : DraftCase)
    (cwv : BenchmarkCandidate) (l : List String) (a1 : List String)
    (a2 : List (String × List String)) :
    l.foldl (clarify_step env draft cwv) (a1, a2)
      = (a1 ++ l.filter (axisNonNeutral cwv),
         a2 ++ l.filterMap (fun v =>
           if axisNonNeutral cwv v
               && !(env.value_audit v (tagOf cwv.choice_1 v)
                     (tagOf cwv.choice_2 v) draft).overall_pass then
             some (v, (env.value_audit v (tagOf cwv.choice_1 v)
                 (tagOf cwv.choice_2 v) draft).failing_suggested_changes)
           else none)) := by
  induction l generalizing a1 a2 with
  | nil => simp
  | cons v tl ih =>
    rw [List.foldl_cons]
    by_cases hnn : (tagOf cwv.choice_1 v != "neutral"
        || tagOf cwv.choice_2 v != "neutral") = true
    · have hax : axisNonNeutral cwv v = true := hnn
      by_cases hp : (env.value_audit v (tagOf cwv.choice_1 v)
          (tagOf cwv.choice_2 v) draft).overall_pass = true
      · rw [show clarify_step env draft cwv (a1, a2) v = (a1 ++ [v], a2) from by
          unfold clarify_step
          rw [if_pos hnn, if_neg (by simp [hp])]]
        rw [ih]
        simp [List.filter_cons, List.filterMap_cons, hax, hp]
      · rw [Bool.not_eq_true] at hp
        rw [show clarify_step env draft cwv (a1, a2) v
            = (a1 ++ [v], a2 ++ [(v, (env.value_audit v (tagOf cwv.choice_1 v)
                (tagOf cwv.choice_2 v) draft).failing_suggested_changes)]) from by
          unfold clarify_step
          rw [if_pos hnn, if_pos (by simp [hp])]]
        rw [ih]
        simp [List.filter_cons, List.filterMap_cons, hax, hp]
    · rw [Bool.not_eq_true] at hnn
      have hax : axisNonNeutral cwv v = false := hnn
      rw [show clarify_step env draft cwv (a1, a2) v = (a1, a2) from by
        unfold clarify_step
        rw [if_neg (by simp [hnn])]]
      rw [ih]
      simp [List.filter_cons, List.filterMap_cons, hax]

/-- C4: in the value-clarification loop, an axis is audited precisely when
at least one of the two choices' tags for it is non-neutral; the collected
adjustments are the `(axis, failing suggested changes)` pairs of the
failing audits; and the final case is the tagged case itself when the
collection is empty, and the output of a single batched adjustment call on
the whole collection otherwise. -/
theorem value_clarification_spec (env : ValueEnv) (draft : DraftCase) :
    (value_clarification env draft).2.1
        = value_axes.filter (axisNonNeutral (env.tag_values draft))
    ∧ (∀ v ∈ value_axes,
        (v ∈ (value_clarification env draft).2.1 ↔
          axisNonNeutral (env.tag_values draft) v = true))
    ∧ (value_clarification env draft).2.2
        = value_axes.filterMap (fun v =>
            if axisNonNeutral (env.tag_values draft) v
                && !(env.value_audit v
                      (tagOf (env.tag_values draft).choice_1 v)
                      (tagOf (env.tag_values draft).choice_2 v)
                      draft).overall_pass then
              some (v, (env.value_audit v
                  (tagOf (env.tag_values draft).choice_1 v)
                  (tagOf (env.tag_values draft).choice_2 v)
                  draft).failing_suggested_changes)
            else none)
    ∧ ((value_clarification env draft).2.2 = [] →
        (value_clarification env draft).1 = env.tag_values draft)
    ∧ ((value_clarification env draft).2.2 ≠ [] →
        (value_clarification env draft).1
          = env.improve_values draft (value_clarification env draft).2.2) := by
  have hfold := clarify_foldl env draft (env.tag_values draft) value_axes [] []
  refine ⟨?_, ?_, ?_, ?_, ?_⟩
  · show (value_axes.foldl
        (clarify_step env draft (env.tag_values draft)) ([], [])).1 = _
    rw [hfold]
    simp
  · intro v hv
    show v ∈ (value_axes.foldl
        (clarify_step env draft (env.tag_values draft)) ([], [])).1 ↔ _
    rw [hfold]
    simp [List.mem_filter, hv]
  · show (value_axes.foldl
        (clarify_step env draft (env.tag_values draft)) ([], [])).2 = _
    rw [hfold]
    simp
  · intro hempty
    have h1 : (value_clarification env draft).1
        = if (value_axes.foldl
              (clarify_step env draft (env.tag_values draft)) ([], [])).2 ≠ []
          then env.improve_values draft (value_axes.foldl
              (clarify_step env draft (env.tag_values draft)) ([], [])).2
          else env.tag_values draft := rfl
    have hempty2 : (value_axes.foldl
        (clarify_step env draft (env.tag_values draft)) ([], [])).2 = [] :=
      hempty
    rw [h1, if_neg (not_not_intro hempty2)]
  · intro hne
    have h1 : (value_clarification env draft).1
        = if (value_axes.foldl
              (clarify_step env draft (env.tag_values draft)) ([], [])).2 ≠ []
          then env.improve_values draft (value_axes.foldl
              (clarify_step env draft (env.tag_values draft)) ([], [])).2
          else env.tag_values draft := rfl
    have hne2 : (value_axes.foldl
        (clarify_step env draft (env.tag_values draft)) ([], [])).2 ≠ [] :=
      hne
    rw [h1, if_pos hne2]
    rfl

def vcEnvW : ValueEnv :=
  { tag_values := fun _ => taggedC
    value_audit := fun v _ _ _ =>
      { overall_pass := false, failing_suggested_changes := ["fix " ++ v] }
    improve_values := fun _ _ =>
      { taggedC with vignette := "improved" } }

/-- Witness for `value_clarification_spec`: with tagging that marks only
autonomy non-neutral (`taggedC`) and audits that always fail, exactly the
autonomy axis is audited — the all-neutral axes are skipped — one
adjustment is collected, and the single batched improvement call produces
the final case. -/
theorem value_clarification_spec_witness :
    (value_clarification vcEnvW draftA).2.1 = ["autonomy"]
    ∧ (value_clarification vcEnvW draftA).2.2
        = [("autonomy", ["fix autonomy"])]
    ∧ (value_clarification vcEnvW draftA).1
        = vcEnvW.improve_values draftA [("autonomy", ["fix autonomy"])] := by
  have h := value_clarification_spec vcEnvW draftA
  have h1 : (value_clarification vcEnvW draftA).2.1 = ["autonomy"] :=
    h.1.trans (by decide)
  have h22 : (value_clarification vcEnvW draftA).2.2
      = [("autonomy", ["fix autonomy"])] :=
    h.2.2.1.trans (by decide)
  refine ⟨h1, h22, ?_⟩
  have h5 := h.2.2.2.2 (by rw [h22]; simp)
  rw [h5, h22]

end ValueBench
